import Mathlib

/-!
# axlibc headers: TUN/TAP constants, `sem_t`, semaphores, vectored I/O, POSIX timers

A shallow embedding of the four headers under `ulib/axlibc/include`
(`linux/if_tun.h`, `semaphore.h`, `sys/uio.h`, `timer.h`).

* The constant tables of `linux/if_tun.h` and the `sem_t` layout and prototypes
  of `semaphore.h` are transcribed from the headers.
* The headers only *declare* `sem_*`, `readv`/`writev` and `timer_*`; their
  bodies are not part of the headers.  Those operations are modelled from the
  design document, and every such definition says so in its doc comment.
-/

namespace Axlibc

/-! ## `linux/if_tun.h` : offload feature flags (lines 4-11) -/

def TUN_F_CSUM : Nat := 0x01
def TUN_F_TSO4 : Nat := 0x02
def TUN_F_TSO6 : Nat := 0x04
def TUN_F_TSO_ECN : Nat := 0x08
def TUN_F_UFO : Nat := 0x10
def TUN_F_USO4 : Nat := 0x20
def TUN_F_USO6 : Nat := 0x40

/-- The seven names `TUN_F_*` of `if_tun.h`, in header order. -/
inductive TunFeature where
  | CSUM | TSO4 | TSO6 | TSO_ECN | UFO | USO4 | USO6
  deriving DecidableEq, Repr

/-- The value the header gives to each `TUN_F_*` name. -/
def TunFeature.mask : TunFeature → Nat
  | .CSUM => TUN_F_CSUM
  | .TSO4 => TUN_F_TSO4
  | .TSO6 => TUN_F_TSO6
  | .TSO_ECN => TUN_F_TSO_ECN
  | .UFO => TUN_F_UFO
  | .USO4 => TUN_F_USO4
  | .USO6 => TUN_F_USO6

/-- All seven feature names, in header order. -/
def TunFeature.all : List TunFeature :=
  [.CSUM, .TSO4, .TSO6, .TSO_ECN, .UFO, .USO4, .USO6]

/-- The argument of `TUNSETOFFLOAD` for a chosen set of features: the bitwise OR
of the flags of the selected features. -/
def offloadBits (sel : TunFeature → Bool) : Nat :=
  ((TunFeature.all.filter sel).map TunFeature.mask).foldl (· ||| ·) 0

/-- Reading one feature back from a `TUNSETOFFLOAD` argument: `bits & TUN_F_x`. -/
def hasFeature (bits : Nat) (f : TunFeature) : Bool :=
  bits &&& f.mask != 0

/-! ## `linux/if_tun.h` : `TUNSETIFF` ifr flags (lines 13-30) -/

def IFF_TUN : Nat := 0x0001
def IFF_TAP : Nat := 0x0002
def IFF_NAPI : Nat := 0x0010
def IFF_NAPI_FRAGS : Nat := 0x0020
def IFF_NO_CARRIER : Nat := 0x0040
def IFF_NO_PI : Nat := 0x1000
def IFF_ONE_QUEUE : Nat := 0x2000
def IFF_VNET_HDR : Nat := 0x4000
def IFF_TUN_EXCL : Nat := 0x8000
def IFF_MULTI_QUEUE : Nat := 0x0100
def IFF_ATTACH_QUEUE : Nat := 0x0200
def IFF_DETACH_QUEUE : Nat := 0x0400
def IFF_PERSIST : Nat := 0x0800
def IFF_NOFILTER : Nat := 0x1000

/-- The fourteen names `IFF_*` of `if_tun.h`, in header order. -/
inductive IffFlag where
  | TUN | TAP | NAPI | NAPI_FRAGS | NO_CARRIER | NO_PI | ONE_QUEUE | VNET_HDR
  | TUN_EXCL | MULTI_QUEUE | ATTACH_QUEUE | DETACH_QUEUE | PERSIST | NOFILTER
  deriving DecidableEq, Repr

/-- The value the header gives to each `IFF_*` name. -/
def IffFlag.mask : IffFlag → Nat
  | .TUN => IFF_TUN
  | .TAP => IFF_TAP
  | .NAPI => IFF_NAPI
  | .NAPI_FRAGS => IFF_NAPI_FRAGS
  | .NO_CARRIER => IFF_NO_CARRIER
  | .NO_PI => IFF_NO_PI
  | .ONE_QUEUE => IFF_ONE_QUEUE
  | .VNET_HDR => IFF_VNET_HDR
  | .TUN_EXCL => IFF_TUN_EXCL
  | .MULTI_QUEUE => IFF_MULTI_QUEUE
  | .ATTACH_QUEUE => IFF_ATTACH_QUEUE
  | .DETACH_QUEUE => IFF_DETACH_QUEUE
  | .PERSIST => IFF_PERSIST
  | .NOFILTER => IFF_NOFILTER

/-- All fourteen flag names, in header order. -/
def IffFlag.all : List IffFlag :=
  [.TUN, .TAP, .NAPI, .NAPI_FRAGS, .NO_CARRIER, .NO_PI, .ONE_QUEUE, .VNET_HDR,
   .TUN_EXCL, .MULTI_QUEUE, .ATTACH_QUEUE, .DETACH_QUEUE, .PERSIST, .NOFILTER]

/-! ## `linux/if_tun.h` : ioctl request codes (lines 32-36) -/

def TUNSETIFF : Nat := 0x400454ca
def TUNSETVNETHDRSZ : Nat := 0x400454d8
def TUNSETOFFLOAD : Nat := 0x400454d0

/-- The Linux `_IOW(type, nr, T)` request encoding the header's comment refers to
(the header writes the three numbers out instead of including the Linux macro):
direction "write" (1) in bits 30-31, `sizeof(T)` in bits 16-29, the type
character in bits 8-15 and the command number in bits 0-7. -/
def linuxIOW (type nr size : Nat) : Nat :=
  (1 <<< 30) ||| (size <<< 16) ||| (type <<< 8) ||| nr

/-- The ioctl type character of the TUN driver, `'T'`. -/
def tunIoctlType : Nat := 'T'.toNat

/-! ## `semaphore.h` : the `sem_t` layout (lines 2-4) -/

/-- Number of elements of `sem_t.__val`: the C constant expression
`4 * sizeof(long) / sizeof(int)` (left to right, integer division), as a function
of the two platform sizes. -/
def sem_val_len (sizeof_long sizeof_int : Nat) : Nat :=
  4 * sizeof_long / sizeof_int

/-- Bytes of `int` storage in `sem_t`: its only member is the array
`volatile int __val[sem_val_len]`. -/
def sem_t_size (sizeof_long sizeof_int : Nat) : Nat :=
  sem_val_len sizeof_long sizeof_int * sizeof_int

/-! ## `semaphore.h` : the declared prototypes (lines 6-10) -/

/-- The C types occurring in the prototypes of `semaphore.h`. -/
inductive CType where
  | int
  | unsigned
  | semPtr
  | constCharPtr
  deriving DecidableEq, Repr

/-- A function declaration: name, return type, and the named parameters. -/
structure Prototype where
  name : String
  ret : CType
  params : List (String × CType)
  deriving DecidableEq, Repr

/-- The five declarations of `semaphore.h`, lines 6-10, in header order. -/
def semaphore_h : List Prototype :=
  [ ⟨"sem_destroy", .int, [("sem", .semPtr)]⟩,
    ⟨"sem_init", .int, [("sem", .semPtr), ("pshared", .int), ("value", .unsigned)]⟩,
    ⟨"sem_open", .semPtr,
      [("name", .constCharPtr), ("oflag", .int), ("mode", .int), ("value", .unsigned)]⟩,
    ⟨"sem_post", .int, [("sem", .semPtr)]⟩,
    ⟨"sem_wait", .int, [("sem", .semPtr)]⟩ ]

/-- What the design document's interface list says of an operation: its name,
its parameter names in order, and its return type. -/
structure SurfaceEntry where
  name : String
  paramNames : List String
  ret : CType
  deriving DecidableEq, Repr

/-- The semaphore surface as the design document lists it (section 6), in the
document's order: `sem_init(sem, pshared, value) -> int`, `sem_wait(sem) -> int`,
`sem_post(sem) -> int`, `sem_destroy(sem) -> int`,
`sem_open(name, oflag, mode, value) -> sem_t*`. -/
def documentedSemaphoreSurface : List SurfaceEntry :=
  [ ⟨"sem_init", ["sem", "pshared", "value"], .int⟩,
    ⟨"sem_wait", ["sem"], .int⟩,
    ⟨"sem_post", ["sem"], .int⟩,
    ⟨"sem_destroy", ["sem"], .int⟩,
    ⟨"sem_open", ["name", "oflag", "mode", "value"], .semPtr⟩ ]

/-- The part of a prototype the interface list talks about. -/
def Prototype.surface (p : Prototype) : SurfaceEntry :=
  ⟨p.name, p.params.map Prod.fst, p.ret⟩

/-- The values a C type can hold, for the two scalar types of the prototypes
(32-bit `int` and `unsigned`); pointers are not given a range. -/
def CType.range : CType → Option (Int × Int)
  | .int => some (-(2 ^ 31), 2 ^ 31 - 1)
  | .unsigned => some (0, 2 ^ 32 - 1)
  | .semPtr => none
  | .constCharPtr => none

/-! ## Error kinds (design document, section 7) -/

/-- Modelled from the spec: the error kinds, which the headers do not declare.
The error taxonomy of the design document, together with the two kinds named
only in the component sections (`InvalidState` for the wait queue,
`InvalidDescriptor` for vectored I/O). -/
inductive ErrorKind where
  | InvalidArgument
  | InvalidHandle
  | Busy
  | WouldBlock
  | Interrupted
  | ResourceExhausted
  | InvalidState
  | InvalidDescriptor
  deriving DecidableEq, Repr

/-! ## Wait queue and semaphore (design document, sections 3, 4.1, 4.2)

`semaphore.h` declares `sem_init`, `sem_wait`, `sem_post` and `sem_destroy` but
holds no body for them; the state machine below follows the design document.
One transition of the machine is one atomic step on the pair (count, queue):
the document makes that pair the unit of mutual exclusion. -/

/-- An execution context (a thread), named by a number. -/
abbrev Ctx := Nat

/-- Modelled from the spec: the wait queue, whose implementation is not in the
headers.  "An ordered sequence of parked execution contexts (FIFO by arrival)";
the head of the list is the oldest arrival. -/
structure WaitQueue where
  parked : List Ctx
  deriving DecidableEq, Repr

/-- Modelled from the spec: `park(context)`, whose implementation is not in the
headers.  "Appends context to the tail of the queue and suspends it." -/
def WaitQueue.park (q : WaitQueue) (c : Ctx) : WaitQueue :=
  ⟨q.parked ++ [c]⟩

/-- Modelled from the spec: `wake_one()`, whose implementation is not in the
headers.  "Removes and resumes the head context, if any; returns whether a
context was woken"; here it returns which one. -/
def WaitQueue.wake_one (q : WaitQueue) : WaitQueue × Option Ctx :=
  match q.parked with
  | [] => (q, none)
  | c :: rest => (⟨rest⟩, some c)

/-- Modelled from the spec: the semaphore state, whose definition behind `sem_t`
is not in the headers.  "Attributes = {count: non-negative integer, owned
WaitQueue, destroyed: boolean}".  The count is an `Int` (the storage of `sem_t`
is an array of `int`), so that its non-negativity is a property of the
operations and not of the type. -/
structure Semaphore where
  count : Int
  queue : WaitQueue
  destroyed : Bool
  deriving DecidableEq, Repr

/-- Modelled from the spec: `sem_init`, whose body is not in the headers.
"`init(initial_value)`: fails with `InvalidArgument` if initial_value exceeds an
implementation-defined maximum" (the parameter `value_max`); otherwise the
semaphore starts with that count, nobody parked, not destroyed.  `pshared` is a
hint the document has ignored.  `value` is `unsigned` in the header. -/
def sem_init (value_max : Nat) (_pshared : Int) (value : Nat) :
    Except ErrorKind Semaphore :=
  if value > value_max then .error .InvalidArgument
  else .ok { count := value, queue := ⟨[]⟩, destroyed := false }

/-- How a successful `sem_wait` call proceeds: it returns at once holding a unit,
or the caller is parked until a later `sem_post` releases it. -/
inductive WaitOutcome where
  | acquired
  | parked
  deriving DecidableEq, Repr

/-- Modelled from the spec: `sem_wait`, whose body is not in the headers.
"If count > 0, decrements and returns immediately; otherwise parks the calling
context on the semaphore's WaitQueue."  A destroyed semaphore is an
already-deleted handle (`InvalidHandle`).  The wait of a parked context
completes when `sem_post` wakes it (see `sem_post`): the re-check of the count
on wake guards against spurious wake-ups, and this machine has no wake other
than the one of `sem_post`, which hands the woken context its unit. -/
def sem_wait (s : Semaphore) (c : Ctx) : Semaphore × Except ErrorKind WaitOutcome :=
  if s.destroyed then (s, .error .InvalidHandle)
  else if s.count > 0 then ({ s with count := s.count - 1 }, .ok .acquired)
  else ({ s with queue := s.queue.park c }, .ok .parked)

/-- Modelled from the spec: `sem_post`, whose body is not in the headers.
"If any context is parked, wakes exactly one (... the resource unit moves
directly to the woken context rather than being re-queued publicly) else
increments count."  The result names the context whose wait this post
completes, if any. -/
def sem_post (s : Semaphore) : Semaphore × Except ErrorKind (Option Ctx) :=
  if s.destroyed then (s, .error .InvalidHandle)
  else
    match s.queue.wake_one with
    | (q, some c) => ({ s with queue := q }, .ok (some c))
    | (_, none) => ({ s with count := s.count + 1 }, .ok none)

/-- Modelled from the spec: `sem_destroy`, whose body is not in the headers.
"Fails with `Busy` if any context is currently parked; otherwise releases the
semaphore's resources."  A failing call returns the semaphore as it was. -/
def sem_destroy (s : Semaphore) : Semaphore × Except ErrorKind Unit :=
  if s.destroyed then (s, .error .InvalidHandle)
  else if s.queue.parked ≠ [] then (s, .error .Busy)
  else ({ s with destroyed := true }, .ok ())

/-- A call on one semaphore: `sem_wait` by a context, `sem_post`, `sem_destroy`. -/
inductive SemCall where
  | wait (c : Ctx)
  | post
  | destroy
  deriving DecidableEq, Repr

/-- What a call did, as seen from outside. -/
inductive SemEvent where
  | acquired (c : Ctx)
  | parked (c : Ctx)
  | posted (woken : Option Ctx)
  | destroyed
  | failed (e : ErrorKind)
  deriving DecidableEq, Repr

/-- One call on the semaphore: the new state and the observed event. -/
def sem_step (s : Semaphore) : SemCall → Semaphore × SemEvent
  | .wait c =>
    match sem_wait s c with
    | (s1, .ok .acquired) => (s1, .acquired c)
    | (s1, .ok .parked) => (s1, .parked c)
    | (s1, .error e) => (s1, .failed e)
  | .post =>
    match sem_post s with
    | (s1, .ok w) => (s1, .posted w)
    | (s1, .error e) => (s1, .failed e)
  | .destroy =>
    match sem_destroy s with
    | (s1, .ok _) => (s1, .destroyed)
    | (s1, .error e) => (s1, .failed e)

/-- A finite sequence of calls: the final state and the events in order. -/
def sem_run (s : Semaphore) : List SemCall → Semaphore × List SemEvent
  | [] => (s, [])
  | c :: cs =>
    let r := sem_step s c
    let rs := sem_run r.1 cs
    (rs.1, r.2 :: rs.2)

/-- Whether an event is the successful completion of a `sem_wait`: an immediate
acquisition, or a post that wakes (and hands its unit to) a parked context. -/
def SemEvent.completesWait : SemEvent → Bool
  | .acquired _ => true
  | .posted (some _) => true
  | _ => false

/-- Whether an event is a completed `sem_post`. -/
def SemEvent.isPost : SemEvent → Bool
  | .posted _ => true
  | _ => false

/-- Number of `sem_wait` calls that have completed successfully in a trace. -/
def waitsCompleted (tr : List SemEvent) : Nat :=
  tr.countP SemEvent.completesWait

/-- Number of `sem_post` calls that have completed in a trace. -/
def postsCompleted (tr : List SemEvent) : Nat :=
  tr.countP SemEvent.isPost

/-- The contexts released from the wait queue by the posts of a trace, in order. -/
def released : List SemEvent → List Ctx
  | [] => []
  | .posted (some c) :: tr => c :: released tr
  | _ :: tr => released tr

/-! ## Vectored I/O (`sys/uio.h`; design document, sections 3, 4.4)

`sys/uio.h` declares `struct iovec`, `readv` and `writev` but holds no body for
them.  The two operations below follow the design document; the scalar
read/write primitive of the file-descriptor layer, which the document leaves to
a collaborator, is a parameter. -/

/-- One byte. -/
abbrev Byte := Fin 256

/-- Modelled from the spec: the scalar primitive of the file-descriptor layer,
which the headers do not declare, over a state `σ`:
`read st fd len` yields at most `len` bytes, `write st fd bytes` yields the
number of bytes it accepted; either may fail with an error kind. -/
structure FdLayer (σ : Type) where
  read : σ → Int → Nat → Except ErrorKind (List Byte × σ)
  write : σ → Int → List Byte → Except ErrorKind (Nat × σ)

/-- Result of `writev`: the state of the descriptor layer and the return value. -/
structure WritevResult (σ : Type) where
  state : σ
  ret : Except ErrorKind Nat

/-- Result of `readv`: the state of the descriptor layer, the caller's buffers
after the call, and the return value. -/
structure ReadvResult (σ : Type) where
  state : σ
  iov : List (List Byte)
  ret : Except ErrorKind Nat

/-- Modelled from the spec: the loop of `writev`, whose body is not in the
headers.  The buffers (`struct iovec`: `iov_base` with `iov_len` bytes, here the
list of those bytes) are drained "in order, ... each buffer completely before
moving to the next"; a short scalar write ends the transfer ("partial transfer
is not an error"); an error of the scalar primitive is surfaced unchanged, with
no retry.  `total` counts the bytes transferred so far. -/
def writev_from {σ : Type} (L : FdLayer σ) (fd : Int) :
    σ → List (List Byte) → Nat → WritevResult σ
  | st, [], total => ⟨st, .ok total⟩
  | st, b :: rest, total =>
    match L.write st fd b with
    | .error e => ⟨st, .error e⟩
    | .ok (n, st2) =>
      if n < b.length then ⟨st2, .ok (total + n)⟩
      else writev_from L fd st2 rest (total + n)

/-- Modelled from the spec: `writev(fd, iov[], count)`, whose body is not in the
headers; `count` is the length of the list. -/
def writev {σ : Type} (L : FdLayer σ) (st : σ) (fd : Int) (iov : List (List Byte)) :
    WritevResult σ :=
  writev_from L fd st iov 0

/-- Modelled from the spec: the loop of `readv`, whose body is not in the
headers.  The buffers are filled "in order, ... each buffer completely before
moving to the next, except that the final partial transfer may leave a later
buffer partially or entirely untouched": the bytes received overwrite the front
of the buffer, the rest of it keeps its content.  A short scalar read ends the
transfer; an error of the scalar primitive is surfaced unchanged. -/
def readv_into {σ : Type} (L : FdLayer σ) (fd : Int) :
    σ → List (List Byte) → Nat → ReadvResult σ
  | st, [], total => ⟨st, [], .ok total⟩
  | st, b :: rest, total =>
    match L.read st fd b.length with
    | .error e => ⟨st, b :: rest, .error e⟩
    | .ok (got, st2) =>
      if got.length < b.length then
        ⟨st2, (got ++ b.drop got.length) :: rest, .ok (total + got.length)⟩
      else
        let r := readv_into L fd st2 rest (total + got.length)
        ⟨r.state, (got ++ b.drop got.length) :: r.iov, r.ret⟩

/-- Modelled from the spec: `readv(fd, iov[], count)`, whose body is not in the
headers; `count` is the length of the list. -/
def readv {σ : Type} (L : FdLayer σ) (st : σ) (fd : Int) (iov : List (List Byte)) :
    ReadvResult σ :=
  readv_into L fd st iov 0

/-- Total of the `iov_len` fields of an I/O vector. -/
def iovTotal (iov : List (List Byte)) : Nat :=
  (iov.map List.length).sum

/-- Modelled from the spec: the contract of the "underlying byte-stream
primitive", which the headers do not contain.
What makes a descriptor layer a byte stream from the descriptor `wfd` to the
descriptor `rfd`, with `pending st` the bytes written and not yet read: a scalar
write accepts a prefix of its buffer and appends it to the pending bytes; a
scalar read returns at most the requested number of bytes, taken from the front
of the pending bytes.  Short transfers and errors are both allowed. -/
structure IsByteStream {σ : Type} (L : FdLayer σ) (pending : σ → List Byte)
    (wfd rfd : Int) : Prop where
  write_appends : ∀ st bs n st2, L.write st wfd bs = .ok (n, st2) →
    n ≤ bs.length ∧ pending st2 = pending st ++ bs.take n
  read_consumes : ∀ st len got st2, L.read st rfd len = .ok (got, st2) →
    got.length ≤ len ∧ pending st = got ++ pending st2

/-- An in-memory pipe: the state is the list of pending bytes; a write accepts
the whole buffer, a read returns as many pending bytes as fit.  The descriptor
numbers are not inspected. -/
def memPipe : FdLayer (List Byte) where
  read st _ len := .ok (st.take len, st.drop len)
  write st _ bs := .ok (bs.length, st ++ bs)

/-- An in-memory pipe whose scalar calls move at most `chunk` bytes each. -/
def chunkedPipe (chunk : Nat) : FdLayer (List Byte) where
  read st _ len := .ok (st.take (min len chunk), st.drop (min len chunk))
  write st _ bs := .ok (min bs.length chunk, st ++ bs.take (min bs.length chunk))

/-! ## POSIX timers (`timer.h`; design document, sections 3, 4.3)

`timer.h` declares `timer_create`, `timer_delete` and `timer_settime` but holds
no body for them.  The registry below follows the design document; the clock's
reading `now` is a parameter of each call. -/

/-- Modelled from the spec: a timer setting, the content of `struct itimerspec`,
which `timer.h` names but does not declare:
the initial expiration `it_value`, relative to the call, and the period
`it_interval`, both in clock units; zero `it_value` means disarmed, zero
`it_interval` means one-shot. -/
structure Itimerspec where
  it_interval : Nat
  it_value : Nat
  deriving DecidableEq, Repr

/-- Modelled from the spec: the notification target of a timer, which the headers
do not declare: "a callback identity or a waiter to wake". -/
inductive NotifyTarget where
  | callback (id : Nat)
  | waiter (c : Ctx)
  deriving DecidableEq, Repr

/-- Modelled from the spec: the timer record, whose definition behind `timer_t`
is not in the headers.  "Attributes = {clock source id, armed: boolean,
next-expiration timestamp (optional), interval (optional, zero means one-shot),
notification target, generation counter}". -/
structure Timer where
  clock_id : Int
  armed : Bool
  next_expiration : Option Nat
  interval : Option Nat
  target : NotifyTarget
  generation : Nat
  deriving DecidableEq, Repr

/-- Modelled from the spec: the timer registry, whose definition is not in the
headers: the timers by handle, the next handle to give out, and the capacity. -/
structure TimerRegistry where
  timers : List (Nat × Timer)
  next_id : Nat
  capacity : Nat
  deriving DecidableEq, Repr

/-- The timer registered under a handle, if any. -/
def TimerRegistry.lookup (reg : TimerRegistry) (id : Nat) : Option Timer :=
  (reg.timers.find? (fun p => p.1 == id)).map Prod.snd

/-- Store a new record under a handle already in the registry. -/
def TimerRegistry.store (reg : TimerRegistry) (id : Nat) (t : Timer) : TimerRegistry :=
  { reg with timers := reg.timers.map (fun p => if p.1 == id then (id, t) else p) }

/-- Modelled from the spec: `timer_create`, whose body is not in the headers.
"`timer_create` yields `Unarmed`"; `ResourceExhausted` when there is "no
capacity for a new ... timer entry".  The notification target is taken as
already decoded from the `sigevent`. -/
def timer_create (reg : TimerRegistry) (clock_id : Int) (target : NotifyTarget) :
    TimerRegistry × Except ErrorKind Nat :=
  if reg.timers.length ≥ reg.capacity then (reg, .error .ResourceExhausted)
  else
    ({ reg with
        timers := reg.timers ++ [(reg.next_id,
          { clock_id := clock_id, armed := false, next_expiration := none,
            interval := none, target := target, generation := 0 })],
        next_id := reg.next_id + 1 },
      .ok reg.next_id)

/-- Modelled from the spec: the `old_value` computation of `timer_settime`, whose
body is not in the headers.  The setting a timer reports at clock reading `now`: the time left until its
next expiration (zero when disarmed) and its interval (zero when it has none). -/
def Timer.setting (now : Nat) (t : Timer) : Itimerspec :=
  { it_value :=
      match t.armed, t.next_expiration with
      | true, some e => e - now
      | _, _ => 0,
    it_interval := t.interval.getD 0 }

/-- Modelled from the spec: the state change of `timer_settime`, whose body is not
in the headers.  The record written for a new setting at clock reading `now`:
"with a nonzero initial expiration transitions to `Armed`, computing
next-expiration from the supplied clock; with a zero initial expiration it
transitions to `Unarmed`"; the interval is overwritten with the new one, and the
generation counter moves on so that events of the old arming are stale. -/
def Timer.rearm (now : Nat) (t : Timer) (new_value : Itimerspec) : Timer :=
  { t with
    armed := decide (new_value.it_value ≠ 0),
    next_expiration :=
      if new_value.it_value ≠ 0 then some (now + new_value.it_value) else none,
    interval := if new_value.it_interval ≠ 0 then some new_value.it_interval else none,
    generation := t.generation + 1 }

/-- Modelled from the spec: `timer_settime(timer_id, flags, new_value,
old_value)`, whose body is not in the headers.  It "atomically
returns/overwrites the previous setting": the old setting is the return value
(the `old_value` output), the new one is stored.  An unknown handle is
`InvalidHandle`.  The document gives `flags` no meaning, so it is not
inspected. -/
def timer_settime (now : Nat) (reg : TimerRegistry) (timer_id : Nat) (_flags : Int)
    (new_value : Itimerspec) : TimerRegistry × Except ErrorKind Itimerspec :=
  match reg.lookup timer_id with
  | none => (reg, .error .InvalidHandle)
  | some t => (reg.store timer_id (t.rearm now new_value), .ok (t.setting now))

/-! # Theorems -/

/-! ## TUN/TAP constants -/

/-- Each selected feature can be read back from the OR of the selected flags,
and no unselected feature is read. -/
theorem hasFeature_offloadBits (sel : TunFeature → Bool) (f : TunFeature) :
    hasFeature (offloadBits sel) f = sel f := by
  cases h1 : sel .CSUM <;> cases h2 : sel .TSO4 <;> cases h3 : sel .TSO6 <;>
    cases h4 : sel .TSO_ECN <;> cases h5 : sel .UFO <;> cases h6 : sel .USO4 <;>
    cases h7 : sel .USO6 <;> cases f <;>
    simp only [offloadBits, TunFeature.all, List.filter, h1, h2, h3, h4, h5, h6, h7] <;>
    decide

/-- C6: the three ioctl request codes of `if_tun.h` are the Linux `_IOW`
encodings `(1 << 30) | (size << 16) | ('T' << 8) | nr` with `'T' = 0x54` and a
4-byte argument: `TUNSETIFF = _IOW('T', 202, int) = 0x400454ca`,
`TUNSETOFFLOAD = _IOW('T', 208, unsigned) = 0x400454d0`,
`TUNSETVNETHDRSZ = _IOW('T', 216, int) = 0x400454d8`. -/
theorem tun_ioctl_codes_are_IOW :
    tunIoctlType = 0x54 ∧
    TUNSETIFF = linuxIOW tunIoctlType 202 4 ∧ TUNSETIFF = 0x400454ca ∧
    TUNSETOFFLOAD = linuxIOW tunIoctlType 208 4 ∧ TUNSETOFFLOAD = 0x400454d0 ∧
    TUNSETVNETHDRSZ = linuxIOW tunIoctlType 216 4 ∧ TUNSETVNETHDRSZ = 0x400454d8 := by
  decide

/-- C8: the seven `TUN_F_*` flags are single-bit masks, flag number `i` (in header
order) being bit `i`, so they occupy exactly bits 0 to 6; two different flags
share no bit; the OR of all seven is `0x7f`; and a set of features is determined
by the OR of its flags (each feature is read back with `bits & TUN_F_x`). -/
theorem tun_features_disjoint_bits :
    TunFeature.all.map TunFeature.mask = (List.range 7).map (2 ^ ·) ∧
    (∀ f : TunFeature, f ∈ TunFeature.all) ∧
    (∀ f g : TunFeature, f ≠ g → f.mask &&& g.mask = 0) ∧
    offloadBits (fun _ => true) = 0x7f ∧
    (∀ (sel : TunFeature → Bool) (f : TunFeature),
      hasFeature (offloadBits sel) f = sel f) ∧
    (∀ sel sel2 : TunFeature → Bool, offloadBits sel = offloadBits sel2 → sel = sel2) := by
  refine ⟨by decide, ?_, ?_, by decide, hasFeature_offloadBits, ?_⟩
  · intro f; cases f <;> decide
  · intro f g; cases f <;> cases g <;> decide
  · intro sel sel2 h
    funext f
    rw [← hasFeature_offloadBits sel f, ← hasFeature_offloadBits sel2 f, h]

/-- C9: every `IFF_*` flag of `if_tun.h` is a single-bit mask below `2^16`; two
differently named flags have the same value exactly when they are the pair
`IFF_NO_PI`, `IFF_NOFILTER` (both `0x1000`); so the 14 names give 13 distinct
masks. -/
theorem iff_flags_single_bit_one_alias :
    (∀ f : IffFlag, f ∈ IffFlag.all) ∧
    (∀ f : IffFlag, ∃ k, k < 16 ∧ f.mask = 2 ^ k) ∧
    (∀ f : IffFlag, f.mask < 2 ^ 16) ∧
    (∀ f g : IffFlag, f ≠ g →
      (f.mask = g.mask ↔
        (f = .NO_PI ∧ g = .NOFILTER) ∨ (f = .NOFILTER ∧ g = .NO_PI))) ∧
    IFF_NO_PI = 0x1000 ∧ IFF_NOFILTER = 0x1000 ∧
    IffFlag.all.length = 14 ∧
    (IffFlag.all.map IffFlag.mask).dedup.length = 13 := by
  refine ⟨?_, ?_, ?_, ?_, rfl, rfl, rfl, by decide⟩
  · intro f; cases f <;> decide
  · intro f
    cases f
    exacts [⟨0, by decide⟩, ⟨1, by decide⟩, ⟨4, by decide⟩, ⟨5, by decide⟩,
      ⟨6, by decide⟩, ⟨12, by decide⟩, ⟨13, by decide⟩, ⟨14, by decide⟩,
      ⟨15, by decide⟩, ⟨8, by decide⟩, ⟨9, by decide⟩, ⟨10, by decide⟩,
      ⟨11, by decide⟩, ⟨12, by decide⟩]
  · intro f; cases f <;> decide
  · intro f g; cases f <;> cases g <;> decide

/-! ## `sem_t` -/

/-- C10: `sem_t.__val` has `4 * sizeof(long) / sizeof(int)` elements; whenever
`sizeof(int)` divides `4 * sizeof(long)` the array holds exactly
`4 * sizeof(long)` bytes; that is 8 ints / 32 bytes on LP64 (long 8, int 4) and
4 ints / 16 bytes on ILP32 (long 4, int 4). -/
theorem sem_t_storage_size (sizeof_long sizeof_int : Nat)
    (hdvd : sizeof_int ∣ 4 * sizeof_long) :
    sem_val_len sizeof_long sizeof_int = 4 * sizeof_long / sizeof_int ∧
    sem_t_size sizeof_long sizeof_int = 4 * sizeof_long ∧
    sem_val_len 8 4 = 8 ∧ sem_t_size 8 4 = 32 ∧
    sem_val_len 4 4 = 4 ∧ sem_t_size 4 4 = 16 := by
  refine ⟨rfl, ?_, by decide, by decide, by decide, by decide⟩
  unfold sem_t_size sem_val_len
  exact Nat.div_mul_cancel hdvd

/-- Witness for `sem_t_storage_size`: the LP64 sizes (long 8, int 4). -/
theorem sem_t_storage_size_witness :
    (4 ∣ 4 * 8) ∧ sem_t_size 8 4 = 4 * 8 :=
  ⟨by decide, (sem_t_storage_size 8 4 (by decide)).2.1⟩

/-- C7: `semaphore.h` declares exactly the five operations of the documented
semaphore surface, each with the documented parameter list and return type:
`sem_init(sem, pshared, value) -> int`, `sem_wait(sem) -> int`,
`sem_post(sem) -> int`, `sem_destroy(sem) -> int` and
`sem_open(name, oflag, mode, value) -> sem_t*`; and every `value` parameter is
`unsigned`, a type without negative values. -/
theorem semaphore_h_declares_surface :
    semaphore_h.length = 5 ∧
    (semaphore_h.map Prototype.surface).Perm documentedSemaphoreSurface ∧
    (∀ p ∈ semaphore_h, ∀ q ∈ p.params, q.1 = "value" →
      q.2 = CType.unsigned ∧ q.2.range.map Prod.fst = some 0) := by
  refine ⟨rfl, by decide, ?_⟩
  decide

/-! ## Semaphore -/

/-- One call keeps the count non-negative and moves exactly one unit: the count
plus the wait completed by the call equals the old count plus the post completed
by the call. -/
theorem sem_step_balance (s : Semaphore) (c : SemCall) (h : 0 ≤ s.count) :
    0 ≤ (sem_step s c).1.count ∧
    (sem_step s c).1.count + (if (sem_step s c).2.completesWait then 1 else 0) =
      s.count + (if (sem_step s c).2.isPost then 1 else 0) := by
  obtain ⟨n, ⟨q⟩, d⟩ := s
  cases c with
  | wait c =>
    cases d
    · by_cases hn : n > 0
      · simp [sem_step, sem_wait, hn, SemEvent.completesWait, SemEvent.isPost]
        simp at hn; omega
      · simp [sem_step, sem_wait, hn, SemEvent.completesWait, SemEvent.isPost]
        simpa using h
    · simpa [sem_step, sem_wait, SemEvent.completesWait, SemEvent.isPost] using h
  | post =>
    cases d
    · cases q with
      | nil =>
        simp [sem_step, sem_post, WaitQueue.wake_one, SemEvent.completesWait,
          SemEvent.isPost]
        simp at h; omega
      | cons a rest =>
        simp [sem_step, sem_post, WaitQueue.wake_one, SemEvent.completesWait,
          SemEvent.isPost]
        simpa using h
    · simpa [sem_step, sem_post, SemEvent.completesWait, SemEvent.isPost] using h
  | destroy =>
    cases d
    · cases q with
      | nil =>
        simpa [sem_step, sem_destroy, SemEvent.completesWait, SemEvent.isPost] using h
      | cons a rest =>
        simpa [sem_step, sem_destroy, SemEvent.completesWait, SemEvent.isPost] using h
    · simpa [sem_step, sem_destroy, SemEvent.completesWait, SemEvent.isPost] using h

/-- Exact balance over a whole run: the final count plus the completed waits
equals the starting count plus the completed posts, and the count stays
non-negative. -/
theorem sem_run_balance (calls : List SemCall) :
    ∀ s : Semaphore, 0 ≤ s.count →
      0 ≤ (sem_run s calls).1.count ∧
      (sem_run s calls).1.count + (waitsCompleted (sem_run s calls).2 : Int) =
        s.count + (postsCompleted (sem_run s calls).2 : Int) := by
  induction calls with
  | nil =>
    intro s h
    simp [sem_run, waitsCompleted, postsCompleted, h]
  | cons c cs ih =>
    intro s h
    obtain ⟨h1, h2⟩ := sem_step_balance s c h
    obtain ⟨h3, h4⟩ := ih (sem_step s c).1 h1
    refine ⟨h3, ?_⟩
    simp only [sem_run, waitsCompleted, postsCompleted, List.countP_cons] at h4 ⊢
    split_ifs at h2 ⊢ <;> push_cast <;> omega

/-- C1: conservation law.  On a semaphore initialised by `sem_init` with value
`v`, after every finite sequence of `sem_wait` / `sem_post` calls (and
`sem_destroy` calls, which move no unit) the count is non-negative and the number
of successfully completed waits is at most `v` plus the number of completed
posts. -/
theorem sem_conservation (value_max : Nat) (pshared : Int) (v : Nat) (s0 : Semaphore)
    (hinit : sem_init value_max pshared v = .ok s0) (calls : List SemCall) :
    0 ≤ (sem_run s0 calls).1.count ∧
    waitsCompleted (sem_run s0 calls).2 ≤ v + postsCompleted (sem_run s0 calls).2 := by
  have hs0 : s0.count = v := by
    unfold sem_init at hinit
    split_ifs at hinit
    cases hinit
    rfl
  have h0 : 0 ≤ s0.count := by rw [hs0]; exact Int.ofNat_nonneg v
  obtain ⟨h1, h2⟩ := sem_run_balance calls s0 h0
  refine ⟨h1, ?_⟩
  rw [hs0] at h2
  omega

/-- Witness for `sem_conservation`: initial value 1, then wait by 7 (acquires),
wait by 8 (parks), post (releases 8), wait by 9 (parks). -/
theorem sem_conservation_witness :
    sem_init 10 0 1 = .ok { count := 1, queue := ⟨[]⟩, destroyed := false } ∧
    (sem_run { count := 1, queue := ⟨[]⟩, destroyed := false }
        [.wait 7, .wait 8, .post, .wait 9]).2
      = [.acquired 7, .parked 8, .posted (some 8), .parked 9] ∧
    (0 ≤ (sem_run { count := 1, queue := ⟨[]⟩, destroyed := false }
        [.wait 7, .wait 8, .post, .wait 9]).1.count ∧
     waitsCompleted (sem_run { count := 1, queue := ⟨[]⟩, destroyed := false }
        [.wait 7, .wait 8, .post, .wait 9]).2
       ≤ 1 + postsCompleted (sem_run { count := 1, queue := ⟨[]⟩, destroyed := false }
        [.wait 7, .wait 8, .post, .wait 9]).2) :=
  ⟨rfl, by decide,
    sem_conservation 10 0 1 _ rfl [.wait 7, .wait 8, .post, .wait 9]⟩

/-- Posts alone release the parked contexts in arrival order: `k` posts on a
live semaphore release the first `k` entries of its wait queue. -/
theorem released_posts (k : Nat) :
    ∀ s : Semaphore, s.destroyed = false →
      released (sem_run s (List.replicate k .post)).2 = s.queue.parked.take k := by
  induction k with
  | zero => intro s _; simp [sem_run, released]
  | succ k ih =>
    intro s hs
    obtain ⟨n, ⟨q⟩, d⟩ := s
    simp only at hs
    subst hs
    cases q with
    | nil =>
      have h := ih { count := n + 1, queue := ⟨[]⟩, destroyed := false } rfl
      simp only [List.take_nil] at h
      simp [List.replicate_succ, sem_run, sem_step, sem_post, WaitQueue.wake_one,
        released, h]
    | cons c rest =>
      have h := ih { count := n, queue := ⟨rest⟩, destroyed := false } rfl
      simp only at h
      simp [List.replicate_succ, sem_run, sem_step, sem_post, WaitQueue.wake_one,
        released, h]

/-- C2: FIFO release order.  On a live semaphore with count 0, context `a` blocks
in `sem_wait` and then context `b` blocks in `sem_wait`.  Subsequent `sem_post`
calls release the parked contexts in arrival order, `a` before `b`; and when
nobody was parked before `a` (so that `a` is the head of the wait queue), the
first of two posts releases `a` and the second releases `b`. -/
theorem sem_post_fifo (s : Semaphore) (a b : Ctx)
    (hlive : s.destroyed = false) (hcount : s.count = 0) :
    (sem_wait s a).2 = .ok .parked ∧
    (sem_wait (sem_wait s a).1 b).2 = .ok .parked ∧
    (∀ k : Nat,
      released (sem_run s (.wait a :: .wait b :: List.replicate k .post)).2
        = (s.queue.parked ++ [a, b]).take k) ∧
    (s.queue.parked = [] →
      (sem_wait (sem_wait s a).1 b).1.queue.parked.head? = some a ∧
      (sem_post (sem_wait (sem_wait s a).1 b).1).2 = .ok (some a) ∧
      (sem_post (sem_post (sem_wait (sem_wait s a).1 b).1).1).2 = .ok (some b) ∧
      released (sem_run s [.wait a, .wait b, .post, .post]).2 = [a, b]) := by
  obtain ⟨n, ⟨q⟩, d⟩ := s
  simp only at hlive hcount
  subst hlive hcount
  refine ⟨by simp [sem_wait], by simp [sem_wait], ?_, ?_⟩
  · intro k
    have h := released_posts k
      { count := 0, queue := ⟨q ++ [a] ++ [b]⟩, destroyed := false } rfl
    simp only [List.append_assoc, List.singleton_append] at h
    simp [sem_run, sem_step, sem_wait, WaitQueue.park, released, h]
  · intro hq
    simp only at hq
    subst hq
    simp [sem_wait, sem_post, sem_run, sem_step, released, WaitQueue.park,
      WaitQueue.wake_one]

/-- Witness for `sem_post_fifo`: contexts 1 and 2 on a fresh semaphore of value 0. -/
theorem sem_post_fifo_witness :
    released (sem_run { count := 0, queue := ⟨[]⟩, destroyed := false }
      [.wait 1, .wait 2, .post, .post]).2 = [1, 2] :=
  ((sem_post_fifo { count := 0, queue := ⟨[]⟩, destroyed := false } 1 2 rfl rfl).2.2.2
    rfl).2.2.2

/-- A destroyed semaphore has nobody parked, in every state reachable from a
state where that holds. -/
theorem sem_run_destroyed_idle (calls : List SemCall) :
    ∀ s : Semaphore, (s.destroyed = true → s.queue.parked = []) →
      ((sem_run s calls).1.destroyed = true → (sem_run s calls).1.queue.parked = []) := by
  induction calls with
  | nil => intro s h; simpa [sem_run] using h
  | cons c cs ih =>
    intro s h
    simp only [sem_run]
    apply ih
    obtain ⟨n, ⟨q⟩, d⟩ := s
    cases c <;> cases d <;> cases q <;>
      simp_all [sem_step, sem_wait, sem_post, sem_destroy, WaitQueue.park,
        WaitQueue.wake_one] <;>
      split_ifs <;> simp

/-- C3: `sem_destroy` fails with `Busy` exactly when at least one context is
parked on the semaphore, and then leaves the semaphore unchanged; in particular,
on a live semaphore with one parked waiter `w`, destroy fails with `Busy`, one
`sem_post` wakes `w` (completing its wait), and destroy then succeeds.  The
semaphore is any state in which a destroyed semaphore has nobody parked, which
is every state the operations can reach. -/
theorem sem_destroy_busy_iff_parked (s : Semaphore)
    (hwf : s.destroyed = true → s.queue.parked = []) :
    ((sem_destroy s).2 = .error .Busy ↔ s.queue.parked ≠ []) ∧
    ((sem_destroy s).2 = .error .Busy → (sem_destroy s).1 = s) ∧
    (∀ w : Ctx, s.destroyed = false → s.queue.parked = [w] →
      (sem_destroy s).2 = .error .Busy ∧
      (sem_post s).2 = .ok (some w) ∧
      (sem_destroy (sem_post s).1).2 = .ok () ∧
      (sem_destroy (sem_post s).1).1.destroyed = true) := by
  obtain ⟨n, ⟨q⟩, d⟩ := s
  simp only at hwf
  refine ⟨?_, ?_, ?_⟩
  · cases d
    · cases q <;> simp [sem_destroy]
    · simp [sem_destroy, hwf rfl]
  · cases d
    · cases q <;> simp [sem_destroy]
    · simp [sem_destroy]
  · intro w hd hq
    simp only at hd hq
    subst hd hq
    simp [sem_destroy, sem_post, WaitQueue.wake_one]

/-- Witness for `sem_destroy_busy_iff_parked`: count 0 with context 7 parked. -/
theorem sem_destroy_busy_iff_parked_witness :
    (sem_destroy { count := 0, queue := ⟨[7]⟩, destroyed := false }).2 = .error .Busy ∧
    (sem_destroy { count := 0, queue := ⟨[7]⟩, destroyed := false }).1
      = { count := 0, queue := ⟨[7]⟩, destroyed := false } ∧
    (sem_destroy (sem_post { count := 0, queue := ⟨[7]⟩, destroyed := false }).1).2
      = .ok () :=
  have h := sem_destroy_busy_iff_parked
    { count := 0, queue := ⟨[7]⟩, destroyed := false } (by decide)
  ⟨(h.2.2 7 rfl rfl).1, h.2.1 (h.2.2 7 rfl rfl).1, (h.2.2 7 rfl rfl).2.2.1⟩

/-! ## Vectored I/O -/

/-- What `writev` leaves in a byte stream: the pending bytes grow by a prefix of
the concatenation of the buffers, whatever the scalar writes do. -/
theorem writev_from_pending {σ : Type} (L : FdLayer σ) (pending : σ → List Byte)
    (wfd rfd : Int) (hL : IsByteStream L pending wfd rfd) (iov : List (List Byte)) :
    ∀ (st : σ) (total : Nat),
      ∃ p, p <+: iov.flatten ∧
        pending (writev_from L wfd st iov total).state = pending st ++ p := by
  induction iov with
  | nil => intro st total; exact ⟨[], by simp, by simp [writev_from]⟩
  | cons b rest ih =>
    intro st total
    unfold writev_from
    cases hw : L.write st wfd b with
    | error e => exact ⟨[], List.nil_prefix, by simp⟩
    | ok r =>
      obtain ⟨n, st2⟩ := r
      obtain ⟨hn, hp⟩ := hL.write_appends st b n st2 hw
      by_cases hlt : n < b.length
      · refine ⟨b.take n, ?_, by simp [hlt, hp]⟩
        rw [List.flatten_cons]
        exact (List.take_prefix n b).trans (List.prefix_append b _)
      · have hb : b.take n = b := List.take_of_length_le (by omega)
        obtain ⟨p, hpre, hpend⟩ := ih st2 (total + n)
        refine ⟨b ++ p, ?_, ?_⟩
        · rw [List.flatten_cons]
          exact (List.prefix_append_right_inj b).mpr hpre
        · simp [hlt, hpend, hp, hb]

/-- What `readv` does on a byte stream: the buffers keep their lengths, and when
it returns a count, the bytes received (that many) left the front of the pending
bytes and overwrote the front of the concatenated buffers. -/
theorem readv_into_spec {σ : Type} (L : FdLayer σ) (pending : σ → List Byte)
    (wfd rfd : Int) (hL : IsByteStream L pending wfd rfd) (iov : List (List Byte)) :
    ∀ (st : σ) (total : Nat),
      (readv_into L rfd st iov total).iov.map List.length = iov.map List.length ∧
      ∀ m, (readv_into L rfd st iov total).ret = .ok m →
        ∃ g, pending st = g ++ pending (readv_into L rfd st iov total).state ∧
          m = total + g.length ∧ g.length ≤ iov.flatten.length ∧
          (readv_into L rfd st iov total).iov.flatten = g ++ iov.flatten.drop g.length := by
  induction iov with
  | nil =>
    intro st total
    refine ⟨by simp [readv_into], ?_⟩
    intro m hm
    exact ⟨[], by simp [readv_into], by simpa [readv_into] using hm.symm, by simp,
      by simp [readv_into]⟩
  | cons b rest ih =>
    intro st total
    unfold readv_into
    cases hr : L.read st rfd b.length with
    | error e =>
      refine ⟨by simp, ?_⟩
      intro m hm
      simp at hm
    | ok r =>
      obtain ⟨got, st2⟩ := r
      obtain ⟨hn, hp⟩ := hL.read_consumes st b.length got st2 hr
      by_cases hlt : got.length < b.length
      · refine ⟨by simp [hlt]; omega, ?_⟩
        intro m hm
        simp only [hlt, if_true] at hm ⊢
        refine ⟨got, hp, ?_, ?_, ?_⟩
        · injection hm with hm; exact hm.symm
        · simp; omega
        · simp [List.drop_append_of_le_length hn]
      · have hlen : got.length = b.length := by omega
        have hb : b.drop got.length = [] := List.drop_of_length_le (by omega)
        obtain ⟨ihl, ihr⟩ := ih st2 (total + got.length)
        refine ⟨?_, ?_⟩
        · simp only [hlt, if_false, List.map_cons, ihl, hb, List.append_nil]
          rw [hlen]
        · intro m hm
          simp only [hlt, if_false] at hm ⊢
          obtain ⟨g, hg1, hg2, hg3, hg4⟩ := ihr m hm
          refine ⟨got ++ g, ?_, ?_, ?_, ?_⟩
          · rw [hp, hg1, List.append_assoc]
          · rw [List.length_append]; omega
          · rw [List.flatten_cons, List.length_append, List.length_append]; omega
          · have hd : (b ++ rest.flatten).drop (got.length + g.length)
                = rest.flatten.drop g.length := by
              rw [hlen, List.drop_append]
            rw [List.flatten_cons, List.flatten_cons, hb, List.append_nil, hg4,
              List.length_append, hd, List.append_assoc]

/-- The in-memory pipe is a byte stream (between any two descriptor numbers). -/
theorem memPipe_isByteStream (wfd rfd : Int) : IsByteStream memPipe id wfd rfd where
  write_appends := by
    intro st bs n st2 h
    simp only [memPipe, Except.ok.injEq, Prod.mk.injEq] at h
    obtain ⟨h1, h2⟩ := h
    subst h1 h2
    simp
  read_consumes := by
    intro st len got st2 h
    simp only [memPipe, Except.ok.injEq, Prod.mk.injEq] at h
    obtain ⟨h1, h2⟩ := h
    subst h1 h2
    simp [List.length_take]

/-- The chunked pipe is a byte stream as well; its scalar calls may be short. -/
theorem chunkedPipe_isByteStream (chunk : Nat) (wfd rfd : Int) :
    IsByteStream (chunkedPipe chunk) id wfd rfd where
  write_appends := by
    intro st bs n st2 h
    simp only [chunkedPipe, Except.ok.injEq, Prod.mk.injEq] at h
    obtain ⟨h1, h2⟩ := h
    subst h1 h2
    exact ⟨Nat.min_le_left _ _, rfl⟩
  read_consumes := by
    intro st len got st2 h
    simp only [chunkedPipe, Except.ok.injEq, Prod.mk.injEq] at h
    obtain ⟨h1, h2⟩ := h
    subst h1 h2
    refine ⟨?_, by simp⟩
    rw [List.length_take]
    exact (Nat.min_le_left _ _).trans (Nat.min_le_left _ _)

/-- A short transfer: on a pipe moving at most 3 bytes per scalar call, `writev`
of 4 + 0 + 6 bytes returns 3 and leaves the first 3 bytes pending. -/
theorem writev_short_transfer :
    (writev (chunkedPipe 3) [] 1 [[1, 2, 3, 4], [], [5, 6, 7, 8, 9, 10]]).ret = .ok 3 ∧
    (writev (chunkedPipe 3) [] 1 [[1, 2, 3, 4], [], [5, 6, 7, 8, 9, 10]]).state
      = [1, 2, 3] :=
  ⟨rfl, by decide⟩

/-- On any byte stream with nothing pending, short transfers allowed: if the
`readv` that follows a `writev` does return the full total, the read buffers
hold, concatenated, the concatenation of the written buffers. -/
theorem round_trip_of_full_read {σ : Type} (L : FdLayer σ) (pending : σ → List Byte)
    (wfd rfd : Int) (hL : IsByteStream L pending wfd rfd)
    (st : σ) (hfresh : pending st = [])
    (wbufs rbufs : List (List Byte))
    (hlen : iovTotal rbufs = iovTotal wbufs)
    (hread : (readv L (writev L st wfd wbufs).state rfd rbufs).ret
      = .ok (iovTotal rbufs)) :
    (readv L (writev L st wfd wbufs).state rfd rbufs).iov.flatten = wbufs.flatten ∧
    (readv L (writev L st wfd wbufs).state rfd rbufs).iov.map List.length
      = rbufs.map List.length := by
  obtain ⟨p, hpre, hpend⟩ := writev_from_pending L pending wfd rfd hL wbufs st 0
  obtain ⟨hl, hspec⟩ :=
    readv_into_spec L pending wfd rfd hL rbufs (writev_from L wfd st wbufs 0).state 0
  obtain ⟨g, hg1, hg2, hg3, hg4⟩ := hspec (iovTotal rbufs) hread
  refine ⟨?_, hl⟩
  have hrl : rbufs.flatten.length = iovTotal rbufs := by
    simp [iovTotal, List.length_flatten]
  have hwl : wbufs.flatten.length = iovTotal wbufs := by
    simp [iovTotal, List.length_flatten]
  have hgl : g.length = wbufs.flatten.length := by omega
  have hgp : g <+: wbufs.flatten := by
    rw [hfresh, List.nil_append] at hpend
    rw [hpend] at hg1
    exact (hg1 ▸ List.prefix_append g _).trans hpre
  have hge : g = wbufs.flatten := hgp.eq_of_length hgl
  unfold readv writev
  rw [hg4, List.drop_of_length_le (by omega), List.append_nil, hge]

/-- After `store` under a registered handle, `lookup` finds the stored record. -/
theorem lookup_store (reg : TimerRegistry) (id : Nat) (t t2 : Timer)
    (h : reg.lookup id = some t) : (reg.store id t2).lookup id = some t2 := by
  obtain ⟨ts, nid, cap⟩ := reg
  simp only [TimerRegistry.lookup, TimerRegistry.store] at h ⊢
  induction ts with
  | nil => simp at h
  | cons p rest ih =>
    by_cases hp : p.1 = id
    · simp [List.find?, hp]
    · have hp2 : (p.1 == id) = false := by simpa using hp
      simp only [List.find?, hp2, List.map_cons] at h ⊢
      simpa [hp2] using ih h

/-- The setting read at the instant of arming is the setting armed. -/
theorem setting_rearm (now : Nat) (t : Timer) (nv : Itimerspec) :
    (t.rearm now nv).setting now = nv := by
  obtain ⟨i, v⟩ := nv
  by_cases hv : v = 0 <;> by_cases hi : i = 0 <;>
    simp [Timer.rearm, Timer.setting, hv, hi]

/-- C5: `timer_settime` returns the previous setting.  For a registered timer and
two consecutive calls at the same clock reading, the first call returns the
setting the timer had, the second call returns the `new_value` of the first;
and a first call with a zero initial expiration leaves the timer disarmed (no
next expiration) while still returning the previous setting. -/
theorem timer_settime_returns_previous (now : Nat) (reg : TimerRegistry) (id : Nat)
    (t : Timer) (hreg : reg.lookup id = some t) (flags1 flags2 : Int)
    (nv1 nv2 : Itimerspec) :
    (timer_settime now reg id flags1 nv1).2 = .ok (t.setting now) ∧
    (timer_settime now (timer_settime now reg id flags1 nv1).1 id flags2 nv2).2
      = .ok nv1 ∧
    (nv1.it_value = 0 →
      ∃ t1, (timer_settime now reg id flags1 nv1).1.lookup id = some t1 ∧
        t1.armed = false ∧ t1.next_expiration = none ∧
        (timer_settime now reg id flags1 nv1).2 = .ok (t.setting now)) := by
  have h1 : timer_settime now reg id flags1 nv1
      = (reg.store id (t.rearm now nv1), .ok (t.setting now)) := by
    simp [timer_settime, hreg]
  have h2 := lookup_store reg id t (t.rearm now nv1) hreg
  refine ⟨by rw [h1], ?_, ?_⟩
  · rw [h1]
    simp [timer_settime, h2, setting_rearm]
  · intro hz
    refine ⟨t.rearm now nv1, by rw [h1]; exact h2, ?_, ?_, by rw [h1]⟩
    · simp [Timer.rearm, hz]
    · simp [Timer.rearm, hz]

/-- Witness for `timer_settime_returns_previous`: a timer created in an empty
registry, armed at clock reading 100 for 5 units with period 2, then disarmed
at the same reading: the second call returns the first setting. -/
theorem timer_settime_returns_previous_witness :
    (timer_create ⟨[], 0, 4⟩ 1 (.callback 0)).2 = .ok 0 ∧
    (timer_settime 100
        (timer_settime 100 (timer_create ⟨[], 0, 4⟩ 1 (.callback 0)).1 0 0 ⟨2, 5⟩).1
        0 0 ⟨0, 0⟩).2 = .ok ⟨2, 5⟩ :=
  ⟨rfl,
    (timer_settime_returns_previous 100 (timer_create ⟨[], 0, 4⟩ 1 (.callback 0)).1 0
      { clock_id := 1, armed := false, next_expiration := none, interval := none,
        target := .callback 0, generation := 0 }
      rfl 0 0 ⟨2, 5⟩ ⟨0, 0⟩).2.1⟩

end Axlibc
